import Mathlib

/-!
Verification of the snyderlab fitbit trial pipeline against its
natural-language specification.

The Python sources are shallowly embedded: calendar dates and timestamps
are modelled as integers (day numbers, or seconds on a timeline),
dictionaries of pipeline components become association lists, and the
exception-based control flow of the loaders becomes explicit
`Except`/`Bool` plumbing.  Each section names the source file and
function it embeds.
-/

namespace Fitbit

/-! ## Cyclic replay shift
Embeds `BaseExtractor.calculate_shift` from
`src/etl/extractors/base_extractor.py` (lines 64-69).  Dates are day
numbers (days since an arbitrary epoch); `target_dt - base_dt` in Python
is the integer difference of day numbers, and Python's `%` on a positive
modulus agrees with `Int.emod`. -/

def calculate_shift (base_date target_date : Int) : Int :=
  (target_date - base_date) % 30

/-! ## Ingestion entry point exit status
Embeds `main` from `src/ingestion-service/main.py` (lines 62-73).  After
`pipeline.run()` the process inspects `pipeline_stats['records_loaded']`
only to choose a log message; the exit status is `0` whenever the run
succeeded and `1` otherwise. -/

/-- The three externally meaningful outcomes of one ingestion run. -/
inductive RunOutcome where
  | successData
  | successNoData
  | failed
deriving DecidableEq, Repr

/-- Which of the three outcomes `main` reports (via its log message). -/
def mainOutcome (success : Bool) (recordsLoaded : Nat) : RunOutcome :=
  if success then
    if recordsLoaded > 0 then .successData else .successNoData
  else .failed

/-- The process exit status chosen by `main` (`sys.exit(0)` on success,
`sys.exit(1)` on failure, independent of `records_loaded`). -/
def mainExitCode (success : Bool) (recordsLoaded : Nat) : Nat :=
  if success then 0 else 1

/-! ## Query-side interval resolution
Embeds `TimeSeriesService.resolve_interval` and
`TimeSeriesService.build_flexible_query` from `src/api/services.py`
(lines 20-114).  A query span is a duration in seconds; Python computes
`minutes`, `hours` and `days` by float division, reproduced here over
`ℚ`. -/

structure TableConfig where
  table : String
  interval : String
  time_column : String
  value_column : String
  description : String
deriving DecidableEq, Repr

def rawConfig : TableConfig :=
  { table := "activities_heart_intraday", interval := "raw",
    time_column := "timestamp", value_column := "value",
    description := "Raw heart rate data (per second)" }

def minuteConfig : TableConfig :=
  { table := "activities_heart_intraday_1m", interval := "1m",
    time_column := "minute", value_column := "avg_heart_rate",
    description := "1-minute aggregated heart rate data" }

def hourConfig : TableConfig :=
  { table := "activities_heart_intraday_1h", interval := "1h",
    time_column := "hour", value_column := "avg_heart_rate",
    description := "1-hour aggregated heart rate data" }

def dayConfig : TableConfig :=
  { table := "activities_heart_intraday_1d", interval := "1d",
    time_column := "day", value_column := "avg_heart_rate",
    description := "1-day aggregated heart rate data" }

/-- `resolve_interval`: pick the source table from the span
(`end_date - start_date`, in seconds) alone. -/
def resolve_interval (durationSeconds : Int) : TableConfig :=
  let minutes : ℚ := (durationSeconds : ℚ) / 60
  let hours : ℚ := (durationSeconds : ℚ) / 3600
  let days : ℚ := (durationSeconds : ℚ) / 86400
  if minutes < 20 then rawConfig
  else if hours < 1 then minuteConfig
  else if days ≤ 7 then hourConfig
  else dayConfig

/-- The semantic content of the SQL string interpolated by
`build_flexible_query`: a `time_bucket`-grouped `AVG` over the chosen
source table. -/
structure BucketQuery where
  bucket_interval : String
  table : String
  time_column : String
  value_column : String
deriving DecidableEq, Repr

/-- An `HTTPException(status_code=400, ...)` raised for an invalid
requested interval. -/
structure ClientError where
  status_code : Nat
deriving DecidableEq, Repr

/-- `build_flexible_query`: map the requested interval token through
`interval_map`, rejecting unknown tokens with a 400 error, and build a
bucketed averaging query over the chosen source table. -/
def build_flexible_query (cfg : TableConfig) (requested_interval : String) :
    Except ClientError BucketQuery :=
  let interval_map : List (String × String) :=
    [("1s", "1 second"), ("1m", "1 minute"), ("1h", "1 hour"), ("1d", "1 day")]
  match interval_map.lookup requested_interval with
  | none => .error { status_code := 400 }
  | some bucket =>
      .ok { bucket_interval := bucket, table := cfg.table,
            time_column := cfg.time_column, value_column := cfg.value_column }

/-! ## Delta filtering
Embeds `BaseTransformer.filter_already_processed_records` from
`src/etl/transformers/base_transformer.py` (lines 68-110).  A record's
`'timestamp'` entry can be absent, a string (which `fromisoformat`
either parses to a datetime or rejects with `ValueError`), a datetime
object, or some other type.  Timestamps are points on an integer
timeline; the timezone normalisation of lines 96-99 only fills in a
missing offset before comparing and is the identity in this model.  The
watermark argument is the already-validated output of
`get_last_processed_timestamp` (an `.isoformat()` string or `None`),
modelled as `Option Int`.  The single `try` around the whole loop means
one record whose string timestamp fails to parse makes the function
return the entire original list. -/

/-- The `'timestamp'` entry of a record handed to the delta filter. -/
inductive TsField where
  | missing
  | strts (parsable : Bool) (t : Int)
  | dtts (t : Int)
  | badtype
deriving DecidableEq, Repr

/-- A record flowing through the delta filter (other fields summarised
by `value`; the filter never modifies a record it keeps). -/
structure DeltaRec where
  ts : TsField
  value : Int
deriving DecidableEq, Repr

/-- The timestamp the filter would compare, when the field is present
and parsable. -/
def tsValue : TsField → Option Int
  | .strts true t => some t
  | .dtts t => some t
  | _ => none

/-- Does this timestamp field make `datetime.fromisoformat` raise? -/
def unparsableTs : TsField → Bool
  | .strts false _ => true
  | _ => false

/-- The `for record in records` loop inside the `try`: `none` models the
`ValueError` escaping to the outer handler. -/
def filterLoop (wm : Int) : List DeltaRec → Option (List DeltaRec)
  | [] => some []
  | r :: rs =>
    match r.ts with
    | .missing => filterLoop wm rs
    | .badtype => filterLoop wm rs
    | .strts false _ => none
    | .strts true t =>
        if wm < t then (filterLoop wm rs).map (r :: ·) else filterLoop wm rs
    | .dtts t =>
        if wm < t then (filterLoop wm rs).map (r :: ·) else filterLoop wm rs

/-- `filter_already_processed_records`: no watermark lets everything
through; otherwise run the loop, and on an exception return the input
list unchanged (the `except` branch at lines 108-110). -/
def filter_already_processed_records (records : List DeltaRec)
    (last_processed_timestamp : Option Int) : List DeltaRec :=
  match last_processed_timestamp with
  | none => records
  | some wm => (filterLoop wm records).getD records

/-! ## Date-range discovery
Embeds `ETLPipeline.determine_date_range` from `src/etl/pipeline.py`
(lines 84-127).  Dates are day numbers.  `settings.START_DATE` /
`settings.END_DATE` are `Option Int` (`none` for unset or blank
strings).  Each loader contributes
`get_last_processed_timestamp().date()` as an `Option Int` watermark
date.  The `for loader_name, loader in self.loaders.items()` loop with
its mutable `earliest_next_date` becomes `earliestNextDate`. -/

/-- The discovery loop: for each loader watermark `t`, the candidate is
`t + 1`; candidates after `today` are skipped (clock-skew guard); the
accumulator keeps the earliest candidate seen so far. -/
def earliestNextDate (today : Int) : List (Option Int) → Option Int → Option Int
  | [], acc => acc
  | w :: ws, acc =>
    match w with
    | none => earliestNextDate today ws acc
    | some t =>
      let next := t + 1
      if today < next then earliestNextDate today ws acc
      else
        match acc with
        | none => earliestNextDate today ws (some next)
        | some cur =>
            earliestNextDate today ws (if next < cur then some next else some cur)

/-- `determine_date_range`: an explicit custom range (both dates
supplied) short-circuits; otherwise the earliest missing date across
loaders starts the run, falling back to the configured start date and
then to 30 days before now; the end is always today. -/
def determine_date_range (startSetting endSetting : Option Int)
    (watermarks : List (Option Int)) (today : Int) : Int × Int :=
  match startSetting, endSetting with
  | some s, some e => (s, e)
  | _, _ =>
    match earliestNextDate today watermarks none with
    | some s => (s, today)
    | none =>
      match startSetting with
      | some s => (s, today)
      | none => (today - 30, today)

/-- Spec-side: the per-stream candidate starts `watermark + 1 day`,
for streams with a watermark whose candidate is not in the future. -/
def candidateStarts (today : Int) (watermarks : List (Option Int)) : List Int :=
  watermarks.filterMap (fun w =>
    w.bind (fun t => if t + 1 ≤ today then some (t + 1) else none))

/-- Spec-side: minimum of two optional dates (`none` = no candidate). -/
def optMin : Option Int → Option Int → Option Int
  | none, b => b
  | some a, none => some a
  | some a, some b => some (min a b)

/-- Spec-side: minimum of a candidate list. -/
def listMin : List Int → Option Int
  | [] => none
  | x :: xs => optMin (some x) (listMin xs)

/-! ## Seeded perturbation of replayed day records
Embeds `HeartRateExtractor.post_process_day_records` from
`src/etl/extractors/heart_rate_extractor.py` (lines 107-147) and
`HeartRateSummaryExtractor.post_process_day_records` from
`src/etl/extractors/heart_rate_summary_extractor.py` (lines 117-165).
CPython's `random` module is one global generator; both functions call
`random.seed(settings.DATA_SEED)` before drawing, so the incoming
global state is discarded.  The generator is modelled as a `Nat` state
threaded explicitly; `lcgStep` is a linear-congruential stand-in for
the Mersenne twister step — the reproducibility property depends only
on the re-seeding, not on the distribution of the draws. -/

/-- One step of the modelled global generator. -/
def lcgStep (s : Nat) : Nat := (s * 1103515245 + 12345) % 2147483648

/-- `random.seed(n)`: the new global state is a function of `n` alone. -/
def seedState (n : Int) : Nat := n.natAbs % 2147483648

/-- `random.uniform(lo, hi)`: draw a value in `[lo, hi]` and advance the
state. -/
def randUniform (lo hi : ℚ) (s : Nat) : ℚ × Nat :=
  (lo + (hi - lo) * ((s % 1000 : Nat) : ℚ) / 1000, lcgStep s)

/-- `random.randint(lo, hi)`: draw an integer in `[lo, hi]` and advance
the state. -/
def randInt (lo hi : Int) (s : Nat) : Int × Nat :=
  (lo + (s : Int) % (hi - lo + 1), lcgStep s)

/-- Python's `round(x, 2)` over the rationals. -/
def round2 (q : ℚ) : ℚ := ((round (q * 100) : ℤ) : ℚ) / 100

/-- An intraday record at the post-processing stage
(`{'dateTime', 'time', 'value', 'user_id'}`). -/
structure HRRec where
  dateTime : Int
  time : Int
  value : ℚ
  user_id : String
deriving DecidableEq, Repr

/-- Intraday post-processing: seed 0 leaves records untouched;
otherwise re-seed the generator from `DATA_SEED` and add bounded ±5
jitter to each value, clamped to [50, 200] and rounded to 2 decimals.
Returns the records together with the generator state left behind. -/
def post_process_intraday (data_seed : Int) (g : Nat) (records : List HRRec) :
    List HRRec × Nat :=
  if records = [] then (records, g)
  else if data_seed = 0 then (records, g)
  else
    records.foldl
      (fun acc r =>
        let drawn := randUniform (-5) 5 acc.2
        let new_value := max 50 (min 200 (r.value + drawn.1))
        (acc.1 ++ [{ r with value := round2 new_value }], drawn.2))
      ([], seedState data_seed)

/-- A heart-rate zone entry (`{'min', 'max', 'minutes'}`). -/
structure Zone where
  min : Int
  max : Int
  minutes : Int
deriving DecidableEq, Repr

/-- The four-zone structure generated for summary records. -/
structure ZoneSet where
  outOfRange : Zone
  fatBurn : Zone
  cardio : Zone
  peak : Zone
deriving DecidableEq, Repr

/-- A summary record at the post-processing stage. -/
structure SummaryRec where
  dateTime : Int
  resting_heart_rate : Int
  heart_rate_zones : ZoneSet
  custom_heart_rate_zones : ZoneSet
  user_id : String
deriving DecidableEq, Repr

/-- Summary post-processing: always re-seed from `DATA_SEED`, then for
each record draw the zone minutes, a resting heart rate in [60, 80] and
the custom zone minutes, in the source's draw order. -/
def post_process_summary (data_seed : Int) (g : Nat) (records : List SummaryRec) :
    List SummaryRec × Nat :=
  if records = [] then (records, g)
  else
    records.foldl
      (fun acc r =>
        let d1 := randInt 30 120 acc.2
        let d2 := randInt 60 180 d1.2
        let d3 := randInt 20 90 d2.2
        let d4 := randInt 5 30 d3.2
        let d5 := randInt 60 80 d4.2
        let d6 := randInt 20 100 d5.2
        let d7 := randInt 50 160 d6.2
        let d8 := randInt 15 80 d7.2
        let d9 := randInt 3 25 d8.2
        (acc.1 ++ [{ r with
          resting_heart_rate := d5.1,
          heart_rate_zones :=
            ⟨⟨60, 70, d1.1⟩, ⟨70, 85, d2.1⟩, ⟨85, 100, d3.1⟩, ⟨100, 120, d4.1⟩⟩,
          custom_heart_rate_zones :=
            ⟨⟨60, 70, d6.1⟩, ⟨70, 85, d7.1⟩, ⟨85, 100, d8.1⟩, ⟨100, 120, d9.1⟩⟩ }],
         d9.2))
      ([], seedState data_seed)

/-- A concrete zone set, used as a witness input. -/
def sampleZones : ZoneSet :=
  ⟨⟨60, 70, 40⟩, ⟨70, 85, 80⟩, ⟨85, 100, 30⟩, ⟨100, 120, 10⟩⟩

/-! ## Pipeline orchestration
Embeds `ETLPipeline.execute_pipeline` from `src/etl/pipeline.py`
(lines 129-246).  The component dictionaries become association lists
keyed by schema/table name; an extractor is a function from a date to
`(schema name, records)` pairs, a transformer is
`transform_records_with_filtering` partially applied to its loader
(records in, filtered records out), and a loader is its `load_records`
success flag.  Records are opaque to the orchestrator, so the record
type is a parameter.  `verify_loading` failures are only logged
(line 221-222) and do not influence control flow, so verification is
not modelled. -/

/-- The run statistics the orchestrator reports (`pipeline_stats`),
plus how many load calls were issued (observable behaviour of the
loading loop, not a Python dict entry). -/
structure PipeStats where
  success : Bool
  records_processed : Nat
  records_loaded : Nat
  loads_attempted : Nat
deriving DecidableEq, Repr

/-- Step 1 (lines 141-146): for each day offset in `range(num_days)`
and each registered extractor, accumulate the extractor's
`(schema name, records)` pairs. -/
def extractAll {α : Type} (extractors : List (String × (Int → List (String × List α))))
    (start_date : Int) (num_days : Nat) : List (String × List α) :=
  ((List.range num_days).map (fun i =>
    (extractors.map (fun ex => ex.2 (start_date + (i : Int)))).flatten)).flatten

/-- Step 2 (lines 160-185): per pair, look up the transformer by schema
name (skipping unmatched names), transform-and-filter, and keep the
pair only when records remain. -/
def transformPhase {α : Type} (transformers : List (String × (List α → List α)))
    (pairs : List (String × List α)) : List (String × List α) :=
  pairs.filterMap (fun p =>
    (transformers.lookup p.1).bind (fun tf =>
      let out := tf p.2
      if out.isEmpty then none else some (p.1, out)))

/-- Step 3 (lines 207-222): load each transformed set, skipping names
with no loader, and break out of the loop on the first load failure.
Returns (number of load calls issued, overall success). -/
def loadPhase {α : Type} (loaders : List (String × (List α → Bool))) :
    List (String × List α) → Nat → Nat × Bool
  | [], attempted => (attempted, true)
  | p :: rest, attempted =>
    match loaders.lookup p.1 with
    | none => loadPhase loaders rest attempted
    | some ld =>
      if ld p.2 then loadPhase loaders rest (attempted + 1)
      else (attempted + 1, false)

/-- `execute_pipeline`: empty extraction fails the run (lines 149-151);
nothing left after delta filtering is a successful no-new-data run
(lines 188-199); otherwise load, failing the run on a load failure
(lines 225-226) and reporting loaded counts on success. -/
def execute_pipeline {α : Type}
    (extractors : List (String × (Int → List (String × List α))))
    (transformers : List (String × (List α → List α)))
    (loaders : List (String × (List α → Bool)))
    (start_date end_date : Int) : PipeStats :=
  let num_days := (end_date - start_date + 1).toNat
  let all := extractAll extractors start_date num_days
  if all.isEmpty then
    { success := false, records_processed := 0, records_loaded := 0,
      loads_attempted := 0 }
  else
    let total := (all.map (fun p => p.2.length)).sum
    let transformed := transformPhase transformers all
    if transformed.isEmpty then
      { success := true, records_processed := total, records_loaded := 0,
        loads_attempted := 0 }
    else
      let lr := loadPhase loaders transformed 0
      if lr.2 then
        { success := true, records_processed := total,
          records_loaded := (transformed.map (fun p => p.2.length)).sum,
          loads_attempted := lr.1 }
      else
        { success := false, records_processed := 0, records_loaded := 0,
          loads_attempted := lr.1 }

/-! ## Transactional batch loading
Embeds `BaseLoader.atomic_operation` and `BaseLoader._batch_process`
from `src/ingestion-service/etl/loaders/base_loader.py` (lines 82-151)
and `HeartRateLoader.load_records` / `_upsert_batch` / `_insert_batch`
from `src/ingestion-service/etl/loaders/heart_rate_loader.py`
(lines 143-243).  The `activities_heart_intraday` table is an
association list timestamp → value with `PRIMARY KEY (timestamp)`.  A
row whose `INSERT` statement raises (constraint violation, connectivity
loss, bad bind values) is marked `valid := false`; `atomic_operation`
rolls the whole transaction back and re-raises on any such failure, and
the batch callbacks catch the exception and return `False`. -/

/-- A canonical record handed to the heart-rate loader; `valid = false`
means executing this row's SQL raises. -/
structure LoadRec where
  timestamp : Int
  value : Int
  valid : Bool
deriving DecidableEq, Repr

/-- The persisted table: rows keyed by timestamp. -/
abbrev HRTable := List (Int × Int)

/-- The per-loader counters of `loading_stats` that `_batch_process`
updates. -/
structure LoadStats where
  batches_processed : Nat
  batches_failed : Nat
  inserted_records : Nat
  failed_records : Nat
deriving DecidableEq, Repr

def emptyLoadStats : LoadStats := ⟨0, 0, 0, 0⟩

/-- One `INSERT ... ON CONFLICT (timestamp) DO UPDATE` statement. -/
def upsertRow (db : HRTable) (r : LoadRec) : Except Unit HRTable :=
  if r.valid then
    if (db.lookup r.timestamp).isSome then
      .ok (db.map (fun p => if p.1 = r.timestamp then (r.timestamp, r.value) else p))
    else .ok (db ++ [(r.timestamp, r.value)])
  else .error ()

/-- One plain `INSERT` statement: a duplicate primary key violates the
uniqueness constraint and raises. -/
def insertRow (db : HRTable) (r : LoadRec) : Except Unit HRTable :=
  if r.valid then
    if (db.lookup r.timestamp).isSome then .error ()
    else .ok (db ++ [(r.timestamp, r.value)])
  else .error ()

/-- The body of one batch transaction: execute the rows in order; the
first raising row aborts the transaction body. -/
def execBatch (row : HRTable → LoadRec → Except Unit HRTable)
    (db : HRTable) (batch : List LoadRec) : Except Unit HRTable :=
  batch.foldlM row db

/-- `atomic_operation` around a batch callback: commit the new table
state, or roll back to the incoming state on an exception; the callback
(`_upsert_batch` / `_insert_batch`) catches and returns `False`. -/
def runBatch (row : HRTable → LoadRec → Except Unit HRTable)
    (db : HRTable) (batch : List LoadRec) : Bool × HRTable :=
  match execBatch row db batch with
  | .ok db2 => (true, db2)
  | .error _ => (false, db)

/-- The `for i in range(0, total_records, batch_size)` loop's batches:
iteration `i` handles the slice `records[i*batch_size : (i+1)*batch_size]`,
and there are `⌈total / batch_size⌉` iterations. -/
def chunkList {α : Type} (batch_size : Nat) (records : List α) : List (List α) :=
  (List.range ((records.length + batch_size - 1) / batch_size)).map
    (fun i => (records.drop (i * batch_size)).take batch_size)

/-- `_batch_process`: iterate the batches; a callback returning `False`
only updates the failure counters and the loop continues; the
`return False` path of lines 138-142 would need the callback itself to
raise, which the heart-rate callbacks never do (they catch their own
exceptions), so the loop always returns `True`. -/
def batch_process (process : HRTable → List LoadRec → Bool × HRTable)
    (db : HRTable) (records : List LoadRec) (batch_size : Nat) :
    Bool × HRTable × LoadStats :=
  if records = [] then (true, db, emptyLoadStats)
  else
    let fin := (chunkList batch_size records).foldl
      (fun acc batch =>
        let res := process acc.1 batch
        if res.1 then
          (res.2, { acc.2 with
            batches_processed := acc.2.batches_processed + 1,
            inserted_records := acc.2.inserted_records + batch.length })
        else
          (res.2, { acc.2 with
            batches_failed := acc.2.batches_failed + 1,
            failed_records := acc.2.failed_records + batch.length }))
      (db, emptyLoadStats)
    (true, fin.1, fin.2)

/-- `HeartRateLoader.load_records`: empty input succeeds immediately;
otherwise reset the stats and batch-process with batch size 1000 using
the upsert or plain-insert callback. -/
def load_records (db : HRTable) (records : List LoadRec) (upsert_mode : Bool) :
    Bool × HRTable × LoadStats :=
  if records = [] then (true, db, emptyLoadStats)
  else if upsert_mode then batch_process (runBatch upsertRow) db records 1000
  else batch_process (runBatch insertRow) db records 1000

/-! ## Canonicalising one intraday record
Embeds `HeartRateTransformer._transform_single_record` in both its
variants: `src/ingestion-service/etl/transformers/heart_rate_transformer.py`
(lines 65-106) and `src/etl/transformers/heart_rate_transformer.py`
(lines 66-107).  A candidate record carries whether its `dateTime` and
`time` fields are present and truthy, whether the combined timestamp
string parses (`ts` is the parsed moment when it does), and its
`value` field, which can be absent, `None`, numeric, a numeric string,
or a string that `float()` rejects. -/

/-- The `'value'` entry of a candidate intraday record. -/
inductive PyValue where
  | missing
  | nonev
  | num (q : Int)
  | numStr (q : Int)
  | badStr
deriving DecidableEq, Repr

/-- A candidate intraday record as seen by `_transform_single_record`. -/
structure CandRec where
  dateTime_present : Bool
  time_present : Bool
  ts_parses : Bool
  ts : Int
  value : PyValue
  user_id : Option String
deriving DecidableEq, Repr

/-- The ingestion-service database record `{'timestamp', 'value'}`. -/
structure DbRec where
  timestamp : Int
  value : Int
deriving DecidableEq, Repr

/-- The `src/etl` database record `{'timestamp', 'value', 'user_id'}`. -/
structure DbRecUser where
  timestamp : Int
  value : Int
  user_id : String
deriving DecidableEq, Repr

/-- Ingestion-service variant: reject on missing date/time fields; the
value defaults to 0 when the key is absent, is set to 0 counting a
filled missing value when it is `None`, and falls back to 0.0 counting
a filled missing value when `float()` raises; finally the combined
timestamp is parsed, rejecting the record when that raises.  Returns
the emitted record (if any) and the `missing_values_filled`
increment. -/
def transform_single_ingestion (r : CandRec) : Option DbRec × Nat :=
  if r.dateTime_present && r.time_present then
    let vf : Int × Nat :=
      match r.value with
      | .missing => (0, 0)
      | .nonev => (0, 1)
      | .num q => (q, 0)
      | .numStr q => (q, 0)
      | .badStr => (0, 1)
    if r.ts_parses then (some ⟨r.ts, vf.1⟩, vf.2) else (none, vf.2)
  else (none, 0)

/-- `src/etl` variant: reject on missing date/time fields, on a
timestamp that fails to parse, on a missing or `None` value, and — via
the enclosing `try/except` around `float(value)` — on a value that
fails float coercion; no 0.0 fallback exists in this variant. -/
def transform_single_etl (r : CandRec) : Option DbRecUser :=
  if r.dateTime_present && r.time_present then
    if r.ts_parses then
      match r.value with
      | .missing => none
      | .nonev => none
      | .num q => some ⟨r.ts, q, r.user_id.getD "user1"⟩
      | .numStr q => some ⟨r.ts, q, r.user_id.getD "user1"⟩
      | .badStr => none
    else none
  else none

end Fitbit

namespace Fitbit

/-- C9: the cyclic replay index `shift(d) = (d − baseDate) mod 30` is
periodic with period 30 days: `shift(d) = shift(d + 30)` for every date
`d` and every base date. -/
theorem calculate_shift_periodic (base d : Int) :
    calculate_shift base (d + 30) = calculate_shift base d := by
  unfold calculate_shift
  have h : d + 30 - base = (d - base) + 1 * 30 := by ring
  rw [h, Int.add_mul_emod_self]

/-- C5 counterexample: success-with-data (5 records loaded) and
success-with-no-new-data (0 records loaded) are distinct outcomes of the
entry point, yet `main` exits with the same status 0 for both, so the
three outcomes do not get pairwise distinct exit codes. -/
theorem mainExitCode_not_injective :
    mainOutcome true 5 ≠ mainOutcome true 0 ∧
    mainExitCode true 5 = mainExitCode true 0 := by
  decide

/-- C5 amended: the entry point exits with status 0 for both success
outcomes (with data loaded and with no new data) and with status 1 for
failure; success-with-data and success-with-no-new-data are
distinguished only by the logged outcome, never by the exit code. -/
theorem mainExitCode_success_vs_failure (n : Nat) :
    mainExitCode true n = 0 ∧
    mainExitCode false n = 1 ∧
    mainOutcome false n = .failed ∧
    mainOutcome true 0 = .successNoData ∧
    mainOutcome true (n + 1) = .successData := by
  refine ⟨rfl, rfl, rfl, rfl, ?_⟩
  simp [mainOutcome]

/-- C7: interval resolution is a function of the query span alone: a
90-second span resolves to the raw per-second table, a 3-day (259200 s)
span resolves to the 1-hour aggregate table; requesting an explicit
"1d" output interval over the resolver's minute source builds a
time-bucketed averaging query over that minute source instead of
erroring; and any requested interval token outside {1s, 1m, 1h, 1d} is
rejected with a 400 client error. -/
theorem resolve_and_flexible_query_behavior :
    resolve_interval 90 = rawConfig ∧
    resolve_interval 259200 = hourConfig ∧
    build_flexible_query minuteConfig "1d" =
      .ok { bucket_interval := "1 day", table := "activities_heart_intraday_1m",
            time_column := "minute", value_column := "avg_heart_rate" } ∧
    ∀ (cfg : TableConfig) (iv : String), iv ∉ ["1s", "1m", "1h", "1d"] →
      build_flexible_query cfg iv = .error { status_code := 400 } := by
  refine ⟨?_, ?_, rfl, ?_⟩
  · unfold resolve_interval
    rw [if_pos (by norm_num)]
  · unfold resolve_interval
    rw [if_neg (by norm_num), if_neg (by norm_num), if_pos (by norm_num)]
  · intro cfg iv h
    simp only [List.mem_cons, List.not_mem_nil, or_false, not_or] at h
    obtain ⟨h1, h2, h3, h4⟩ := h
    have e1 : (iv == "1s") = false := beq_eq_false_iff_ne.mpr h1
    have e2 : (iv == "1m") = false := beq_eq_false_iff_ne.mpr h2
    have e3 : (iv == "1h") = false := beq_eq_false_iff_ne.mpr h3
    have e4 : (iv == "1d") = false := beq_eq_false_iff_ne.mpr h4
    unfold build_flexible_query
    simp [List.lookup, e1, e2, e3, e4]

/-- C7 witness: the rejection clause of
`resolve_and_flexible_query_behavior` applied at the concrete invalid
token "5m" over the raw source table. -/
theorem resolve_and_flexible_query_behavior_witness :
    build_flexible_query rawConfig "5m" = .error { status_code := 400 } :=
  resolve_and_flexible_query_behavior.2.2.2 rawConfig "5m" (by decide)

/-- Helper: when every record's timestamp parses (no `ValueError`), the
filter loop succeeds and keeps exactly the records whose present
timestamp is strictly above the watermark. -/
theorem filterLoop_eq_some (wm : Int) (l : List DeltaRec)
    (h : ∀ r ∈ l, unparsableTs r.ts = false) :
    filterLoop wm l =
      some (l.filter (fun r => (tsValue r.ts).any (fun t => decide (wm < t)))) := by
  induction l with
  | nil => rfl
  | cons r rs ih =>
    have hr : unparsableTs r.ts = false := h r (List.mem_cons_self r rs)
    have hrs : ∀ x ∈ rs, unparsableTs x.ts = false :=
      fun x hx => h x (List.mem_cons_of_mem r hx)
    have ih' := ih hrs
    cases hts : r.ts with
    | missing =>
        simp [filterLoop, hts, ih', List.filter, tsValue, Option.any]
    | badtype =>
        simp [filterLoop, hts, ih', List.filter, tsValue, Option.any]
    | dtts t =>
        by_cases hc : wm < t
        · simp [filterLoop, hts, ih', List.filter, tsValue, Option.any, hc]
        · simp [filterLoop, hts, ih', List.filter, tsValue, Option.any, hc]
    | strts p t =>
        cases p with
        | false => rw [hts] at hr; simp [unparsableTs] at hr
        | true =>
            by_cases hc : wm < t
            · simp [filterLoop, hts, ih', List.filter, tsValue, Option.any, hc]
            · simp [filterLoop, hts, ih', List.filter, tsValue, Option.any, hc]

/-- Helper: one unparsable string timestamp anywhere in the list makes
the loop raise. -/
theorem filterLoop_eq_none (wm : Int) (l : List DeltaRec)
    (h : ∃ r ∈ l, unparsableTs r.ts = true) :
    filterLoop wm l = none := by
  induction l with
  | nil => simp at h
  | cons r rs ih =>
    obtain ⟨x, hx, hux⟩ := h
    rcases List.mem_cons.mp hx with hx | hx
    · subst hx
      cases hts : x.ts with
      | strts p t =>
          cases p with
          | false => simp [filterLoop, hts]
          | true => rw [hts] at hux; simp [unparsableTs] at hux
      | missing => rw [hts] at hux; simp [unparsableTs] at hux
      | badtype => rw [hts] at hux; simp [unparsableTs] at hux
      | dtts t => rw [hts] at hux; simp [unparsableTs] at hux
    · have hnone := ih ⟨x, hx, hux⟩
      cases hts : r.ts with
      | missing => simp [filterLoop, hts, hnone]
      | badtype => simp [filterLoop, hts, hnone]
      | strts p t =>
          cases p with
          | false => simp [filterLoop, hts]
          | true => by_cases hc : wm < t <;> simp [filterLoop, hts, hnone, hc]
      | dtts t => by_cases hc : wm < t <;> simp [filterLoop, hts, hnone, hc]

/-- C3 counterexample: with watermark 3, a list holding a record whose
datetime timestamp is 2 (not greater than the watermark) together with a
record whose string timestamp fails to parse is returned **unchanged**
(the `ValueError` escapes the loop and the `except` branch returns the
whole input), so the filter does not return exactly the records with
timestamp strictly greater than the watermark. -/
theorem filter_already_processed_records_counterexample :
    filter_already_processed_records
        [⟨.dtts 2, 10⟩, ⟨.strts false 0, 11⟩] (some 3)
      = [⟨.dtts 2, 10⟩, ⟨.strts false 0, 11⟩] ∧
    tsValue (TsField.dtts 2) = some 2 ∧ ¬ ((3 : Int) < 2) := by
  refine ⟨rfl, rfl, by decide⟩

/-- C3 amended: with no watermark the filter returns all records
unchanged; with a watermark, **provided every record's string timestamp
parses**, it keeps exactly the records whose present, parsable
timestamp is strictly greater than the watermark (equal timestamps and
records with a missing or ill-typed timestamp are dropped); but if any
record's string timestamp fails to parse, the filter returns the whole
input list unchanged. -/
theorem filter_already_processed_records_spec (records : List DeltaRec) (wm : Int) :
    filter_already_processed_records records none = records ∧
    ((∀ r ∈ records, unparsableTs r.ts = false) →
      filter_already_processed_records records (some wm)
        = records.filter (fun r => (tsValue r.ts).any (fun t => decide (wm < t)))) ∧
    ((∃ r ∈ records, unparsableTs r.ts = true) →
      filter_already_processed_records records (some wm) = records) := by
  refine ⟨rfl, ?_, ?_⟩
  · intro h
    show (filterLoop wm records).getD records = _
    rw [filterLoop_eq_some wm records h]
    rfl
  · intro h
    show (filterLoop wm records).getD records = records
    rw [filterLoop_eq_none wm records h]
    rfl

/-- C3 witness: the amended filter specification applied at watermark 3
to records with parsable timestamps 5 and 2 keeps exactly the record
with timestamp 5. -/
theorem filter_already_processed_records_spec_witness :
    filter_already_processed_records [⟨.dtts 5, 1⟩, ⟨.strts true 2, 2⟩, ⟨.missing, 3⟩] (some 3)
      = [⟨.dtts 5, 1⟩] := by
  have h := (filter_already_processed_records_spec
    [⟨.dtts 5, 1⟩, ⟨.strts true 2, 2⟩, ⟨.missing, 3⟩] 3).2.1 (by decide)
  rw [h]
  rfl

/-- Helper: `optMin` is associative. -/
theorem optMin_assoc (a b c : Option Int) :
    optMin (optMin a b) c = optMin a (optMin b c) := by
  cases a <;> cases b <;> cases c <;> simp [optMin, min_assoc]

/-- Helper: the discovery loop computes the minimum of the accumulator
and the candidate starts of the remaining watermarks. -/
theorem earliestNextDate_eq (today : Int) (ws : List (Option Int)) (acc : Option Int) :
    earliestNextDate today ws acc = optMin acc (listMin (candidateStarts today ws)) := by
  induction ws generalizing acc with
  | nil => cases acc <;> simp [earliestNextDate, candidateStarts, listMin, optMin]
  | cons w ws ih =>
    cases w with
    | none =>
        simpa [earliestNextDate, candidateStarts, List.filterMap_cons] using ih acc
    | some t =>
      by_cases hc : today < t + 1
      · have hdrop : ¬ (t + 1 ≤ today) := by omega
        simpa [earliestNextDate, hc, candidateStarts, List.filterMap_cons, hdrop] using ih acc
      · have hle : t + 1 ≤ today := by omega
        cases acc with
        | none =>
            rw [show earliestNextDate today (some t :: ws) none
                  = earliestNextDate today ws (some (t + 1)) by
                simp [earliestNextDate, hc]]
            rw [ih (some (t + 1))]
            simp [candidateStarts, List.filterMap_cons, hle, listMin, optMin]
        | some cur =>
            rw [show earliestNextDate today (some t :: ws) (some cur)
                  = earliestNextDate today ws
                      (if t + 1 < cur then some (t + 1) else some cur) by
                simp [earliestNextDate, hc]]
            have hmin : (if t + 1 < cur then some (t + 1) else some cur)
                = optMin (some cur) (some (t + 1)) := by
              simp only [optMin, min_def]
              split_ifs with h1 h2 h2 <;> (try rfl) <;> (exfalso; omega)
            rw [hmin]
            by_cases hi : t + 1 < cur
            · rw [ih (optMin (some cur) (some (t + 1)))]
              rw [optMin_assoc]
              simp [candidateStarts, List.filterMap_cons, hle, listMin]
            · rw [ih (optMin (some cur) (some (t + 1)))]
              rw [optMin_assoc]
              simp [candidateStarts, List.filterMap_cons, hle, listMin]

/-- Helper: `listMin` of a non-empty list is `some`. -/
theorem listMin_eq_none_iff (l : List Int) : listMin l = none ↔ l = [] := by
  cases l with
  | nil => simp [listMin]
  | cons x xs => cases h : listMin xs <;> simp [listMin, h, optMin]

/-- Helper: `listMin` returns a member that is a lower bound. -/
theorem listMin_is_min (l : List Int) :
    ∀ m, listMin l = some m → m ∈ l ∧ ∀ c ∈ l, m ≤ c := by
  induction l with
  | nil => intro m h; simp [listMin] at h
  | cons x xs ih =>
    intro m h
    cases hxs : listMin xs with
    | none =>
      have hx : xs = [] := (listMin_eq_none_iff xs).mp hxs
      subst hx
      have hm : m = x := by
        simp [listMin, optMin] at h
        omega
      subst hm
      simp
    | some mx =>
      obtain ⟨hmem, hle⟩ := ih mx hxs
      have hm : m = min x mx := by
        simp [listMin, hxs, optMin] at h
        omega
      subst hm
      refine ⟨?_, ?_⟩
      · rcases min_cases x mx with ⟨he, _⟩ | ⟨he, _⟩
        · rw [he]; exact List.mem_cons_self x xs
        · rw [he]; exact List.mem_cons_of_mem x hmem
      · intro c hc
        rcases List.mem_cons.mp hc with hcx | hc
        · rw [hcx]; exact min_le_left x mx
        · exact le_trans (min_le_right x mx) (hle c hc)

/-- Helper: loaders without a watermark contribute no candidate. -/
theorem candidateStarts_all_none (today : Int) (ws : List (Option Int))
    (h : ∀ w ∈ ws, w = none) : candidateStarts today ws = [] := by
  induction ws with
  | nil => rfl
  | cons w ws ih =>
    have hw : w = none := h w (List.mem_cons_self w ws)
    subst hw
    simp only [candidateStarts, List.filterMap_cons, Option.bind]
    exact ih (fun x hx => h x (List.mem_cons_of_mem none hx))

/-- Helper: with no explicit end date, `determine_date_range` never
takes the custom-range branch. -/
theorem determine_date_range_no_custom (sd : Option Int)
    (ws : List (Option Int)) (today : Int) :
    determine_date_range sd none ws today =
      match earliestNextDate today ws none with
      | some s => (s, today)
      | none =>
        match sd with
        | some s => (s, today)
        | none => (today - 30, today) := by
  cases sd <;> rfl

/-- C2: with no explicit custom start/end dates, range discovery takes
each stream's watermark date + 1 day as a candidate start, skips
candidates after today, and starts at the earliest remaining candidate
(it is a lower bound of, and belongs to, the candidate set); when no
stream has a watermark it falls back to the configured start date or
else 30 days before now; the end is always today; and for watermarks
{day N, day N−3} the start is day N−2. -/
theorem determine_date_range_spec (sd : Option Int) (ws : List (Option Int)) (today : Int) :
    (determine_date_range sd none ws today).2 = today ∧
    (∀ c ∈ candidateStarts today ws, (determine_date_range sd none ws today).1 ≤ c) ∧
    (candidateStarts today ws ≠ [] →
      (determine_date_range sd none ws today).1 ∈ candidateStarts today ws) ∧
    ((∀ w ∈ ws, w = none) →
      (determine_date_range sd none ws today).1 = sd.getD (today - 30)) ∧
    (∀ N : Int, N + 1 ≤ today →
      (determine_date_range sd none [some N, some (N - 3)] today).1 = N - 2) := by
  have hbase : earliestNextDate today ws none = listMin (candidateStarts today ws) := by
    rw [earliestNextDate_eq]; rfl
  refine ⟨?_, ?_, ?_, ?_, ?_⟩
  · rw [determine_date_range_no_custom, hbase]
    cases h : listMin (candidateStarts today ws) with
    | some m => rfl
    | none => cases sd <;> rfl
  · intro c hc
    rw [determine_date_range_no_custom, hbase]
    cases h : listMin (candidateStarts today ws) with
    | some m =>
        obtain ⟨_, hle⟩ := listMin_is_min (candidateStarts today ws) m h
        simpa using hle c hc
    | none =>
        exact absurd ((listMin_eq_none_iff _).mp h ▸ hc) (List.not_mem_nil c)
  · intro hne
    rw [determine_date_range_no_custom, hbase]
    cases h : listMin (candidateStarts today ws) with
    | some m =>
        obtain ⟨hmem, _⟩ := listMin_is_min (candidateStarts today ws) m h
        simpa using hmem
    | none => exact absurd ((listMin_eq_none_iff _).mp h) hne
  · intro hall
    rw [determine_date_range_no_custom, hbase, candidateStarts_all_none today ws hall]
    cases sd <;> rfl
  · intro N hN
    have h1 : ¬ today < N + 1 := by omega
    have h2 : ¬ today < N - 3 + 1 := by omega
    have h3 : N - 3 + 1 < N + 1 := by omega
    rw [determine_date_range_no_custom]
    rw [show earliestNextDate today [some N, some (N - 3)] none = some (N - 3 + 1) by
      simp [earliestNextDate, h1, h2, h3]]
    simp only []
    omega

/-- C2 witness: the {N, N−3} discovery clause at N = 10 with today = 12:
the computed start is day 8. -/
theorem determine_date_range_spec_witness :
    (10 : Int) + 1 ≤ 12 ∧
    (determine_date_range none none [some 10, some (10 - 3)] 12).1 = 10 - 2 :=
  ⟨by decide, (determine_date_range_spec none [some 10, some 7] 12).2.2.2.2 10 (by decide)⟩

/-- C8: seeded perturbation is reproducible: for every non-zero seed
and every input record list, the perturbed output is independent of the
generator state left behind by earlier work — both the intraday ±5
jitter pass and the summary pseudo-random generation pass re-seed from
`DATA_SEED`, so two runs on the same seed and input produce identical
output record lists. -/
theorem post_process_deterministic (seed : Int) (g1 g2 : Nat)
    (hr : List HRRec) (sr : List SummaryRec) (hseed : seed ≠ 0) :
    (post_process_intraday seed g1 hr).1 = (post_process_intraday seed g2 hr).1 ∧
    (post_process_summary seed g1 sr).1 = (post_process_summary seed g2 sr).1 := by
  constructor
  · by_cases h : hr = [] <;> simp [post_process_intraday, h, hseed]
  · by_cases h : sr = [] <;> simp [post_process_summary, h]

/-- Helper: a flatten of all-empty lists is empty. -/
theorem flatten_eq_nil_of_all_nil {α : Type} (l : List (List α))
    (h : ∀ x ∈ l, x = []) : l.flatten = [] := by
  induction l with
  | nil => rfl
  | cons x xs ih =>
    have hx : x = [] := h x (List.mem_cons_self x xs)
    have hxs := ih (fun y hy => h y (List.mem_cons_of_mem x hy))
    simp [hx, hxs]

/-- Helper: when every extractor yields nothing for every day of the
range, extraction accumulates nothing. -/
theorem extractAll_eq_nil {α : Type}
    (extractors : List (String × (Int → List (String × List α))))
    (start_date : Int) (num_days : Nat)
    (h : ∀ ex ∈ extractors, ∀ i : Nat, i < num_days →
      ex.2 (start_date + (i : Int)) = []) :
    extractAll extractors start_date num_days = [] := by
  unfold extractAll
  apply flatten_eq_nil_of_all_nil
  intro x hx
  obtain ⟨i, hi, hfi⟩ := List.mem_map.mp hx
  subst hfi
  apply flatten_eq_nil_of_all_nil
  intro y hy
  obtain ⟨ex, hex, hey⟩ := List.mem_map.mp hy
  subst hey
  exact h ex hex i (List.mem_range.mp hi)

/-- Helper: when every extracted pair transforms-and-filters to nothing,
the transformation phase keeps nothing. -/
theorem transformPhase_eq_nil {α : Type}
    (transformers : List (String × (List α → List α)))
    (pairs : List (String × List α))
    (h : ∀ p ∈ pairs, ∀ tf, transformers.lookup p.1 = some tf → tf p.2 = []) :
    transformPhase transformers pairs = [] := by
  induction pairs with
  | nil => rfl
  | cons p ps ih =>
    have hps := ih (fun q hq => h q (List.mem_cons_of_mem p hq))
    simp only [transformPhase, List.filterMap_cons] at hps ⊢
    cases hl : transformers.lookup p.1 with
    | none => simpa [hl] using hps
    | some tf =>
        have htf : tf p.2 = [] := h p (List.mem_cons_self p ps) tf hl
        simpa [hl, htf] using hps

/-- C6: a run whose extraction produced at least one (schema, records)
pair but where delta filtering empties every pair ends successfully:
the success flag is true, zero records are loaded, and no load call is
issued (the no-new-data terminal state differs from a populated run
only in the reported statistics). -/
theorem execute_pipeline_no_new_data {α : Type}
    (extractors : List (String × (Int → List (String × List α))))
    (transformers : List (String × (List α → List α)))
    (loaders : List (String × (List α → Bool)))
    (start_date end_date : Int)
    (hne : extractAll extractors start_date ((end_date - start_date + 1).toNat) ≠ [])
    (hfiltered : ∀ p ∈ extractAll extractors start_date ((end_date - start_date + 1).toNat),
      ∀ tf, transformers.lookup p.1 = some tf → tf p.2 = []) :
    execute_pipeline extractors transformers loaders start_date end_date =
      { success := true,
        records_processed :=
          ((extractAll extractors start_date ((end_date - start_date + 1).toNat)).map
            (fun p => p.2.length)).sum,
        records_loaded := 0, loads_attempted := 0 } := by
  have ht := transformPhase_eq_nil transformers _ hfiltered
  unfold execute_pipeline
  simp [hne, ht]

/-- C6 witness: one extractor pair ("s", [1, 2]) whose transformer
filters everything out: the run succeeds with 2 records processed, 0
loaded and no load call. -/
theorem execute_pipeline_no_new_data_witness :
    execute_pipeline [("s", fun _ => [("s", [(1 : Int), 2])])]
        [("s", fun _ => ([] : List Int))] [] 0 0 =
      { success := true, records_processed := 2, records_loaded := 0,
        loads_attempted := 0 } := by
  have hval : extractAll [("s", fun _ => [("s", [(1 : Int), 2])])] 0
      ((0 - 0 + 1 : Int).toNat) = [("s", [(1 : Int), 2])] := by decide
  have h := execute_pipeline_no_new_data
      [("s", fun _ => [("s", [(1 : Int), 2])])] [("s", fun _ => [])] [] 0 0
      (by rw [hval]; decide)
      (by
        intro p hp tf htf
        rw [hval] at hp
        have hp' : p = ("s", [(1 : Int), 2]) := by simpa using hp
        subst hp'
        simp [List.lookup] at htf
        rw [← htf])
  rw [h, hval]
  rfl

/-- C10: when every extractor returns an empty result for every date of
the discovered range, the accumulated extraction is empty and
`execute_pipeline` returns failure (not success-with-no-new-data). -/
theorem execute_pipeline_all_extraction_empty {α : Type}
    (extractors : List (String × (Int → List (String × List α))))
    (transformers : List (String × (List α → List α)))
    (loaders : List (String × (List α → Bool)))
    (start_date end_date : Int)
    (h : ∀ ex ∈ extractors, ∀ i : Nat, i < (end_date - start_date + 1).toNat →
      ex.2 (start_date + (i : Int)) = []) :
    (execute_pipeline extractors transformers loaders start_date end_date).success
      = false := by
  have he := extractAll_eq_nil extractors start_date _ h
  unfold execute_pipeline
  simp [he]

/-- C10 witness: a single extractor that yields nothing on every date
makes the 0..5 run fail. -/
theorem execute_pipeline_all_extraction_empty_witness :
    (execute_pipeline [("s", fun _ => ([] : List (String × List Int)))]
        [] [] 0 5).success = false := by
  exact execute_pipeline_all_extraction_empty _ _ _ 0 5
    (by
      intro ex hex i hi
      have hx : ex = ("s", fun _ => ([] : List (String × List Int))) := by
        simpa using hex
      rw [hx])

set_option maxRecDepth 100000 in
/-- C1 counterexample: loading 1001 records whose first row fails with
batch size 1000 splits into two batches; the first batch fails and is
rolled back, yet the loader still attempts the second batch, commits
it (the final table holds its row), and the load call returns success —
refuting that the loader stops after the first failed batch and returns
failure. -/
theorem load_records_counterexample :
    load_records [] (⟨0, 1, false⟩ :: List.replicate 1000 ⟨5, 7, true⟩) true
      = (true, [(5, 7)],
         { batches_processed := 1, batches_failed := 1,
           inserted_records := 1, failed_records := 1000 }) := by
  decide

/-- Helper: the table component of the `_batch_process` fold ignores
the statistics component. -/
theorem batch_fold_fst (process : HRTable → List LoadRec → Bool × HRTable)
    (l : List (List LoadRec)) (db : HRTable) (s : LoadStats) :
    (l.foldl
      (fun acc batch =>
        let res := process acc.1 batch
        if res.1 then
          (res.2, { acc.2 with
            batches_processed := acc.2.batches_processed + 1,
            inserted_records := acc.2.inserted_records + batch.length })
        else
          (res.2, { acc.2 with
            batches_failed := acc.2.batches_failed + 1,
            failed_records := acc.2.failed_records + batch.length }))
      (db, s)).1
      = l.foldl (fun d b => (process d b).2) db := by
  induction l generalizing db s with
  | nil => rfl
  | cons b l ih =>
    simp only [List.foldl_cons]
    by_cases h : (process db b).1 <;> simp [h, ih]

/-- C1 amended: each batch runs in a single transaction, so a batch
with any failing row leaves the table exactly as it was (full
rollback, no partial commit); but after a failed batch the loader only
records the failure in its statistics and continues with the remaining
batches, and the load call always returns success — the final table is
the fold of commit-or-skip over all batches. -/
theorem load_records_spec (db : HRTable) (records : List LoadRec) :
    (∀ (batch : List LoadRec) (e : Unit),
      execBatch upsertRow db batch = .error e →
        runBatch upsertRow db batch = (false, db)) ∧
    (load_records db records true).1 = true ∧
    (load_records db records true).2.1 =
      (chunkList 1000 records).foldl (fun d b => (runBatch upsertRow d b).2) db := by
  refine ⟨?_, ?_, ?_⟩
  · intro batch e hx
    unfold runBatch
    rw [hx]
  · unfold load_records
    by_cases h : records = [] <;> simp [h, batch_process]
  · unfold load_records
    by_cases h : records = []
    · simp [h, chunkList]
    · simp only [h, if_neg, if_pos, ite_false, ite_true]
      unfold batch_process
      simp only [h, ite_false]
      exact batch_fold_fst (runBatch upsertRow) (chunkList 1000 records) db emptyLoadStats

/-- C1 witness: a one-record batch whose row fails is rolled back (the
empty table stays empty) while the load call still reports success. -/
theorem load_records_spec_witness :
    runBatch upsertRow [] [⟨0, 1, false⟩] = (false, []) ∧
    (load_records [] [⟨0, 1, false⟩] true).1 = true :=
  ⟨(load_records_spec [] [⟨0, 1, false⟩]).1 [⟨0, 1, false⟩] () rfl,
   (load_records_spec [] [⟨0, 1, false⟩]).2.1⟩

/-- C4 counterexample: a candidate record with present, parsable
timestamp fields whose value fails float coercion is **rejected** by
the `src/etl` transformer (no 0.0 fallback), while the
ingestion-service transformer emits it with value 0 and counts one
filled missing value — so the claim fails for the `src/etl` variant it
also cites. -/
theorem transform_single_etl_counterexample :
    transform_single_etl ⟨true, true, true, 0, .badStr, some "u"⟩ = none ∧
    transform_single_ingestion ⟨true, true, true, 0, .badStr, some "u"⟩
      = (some ⟨0, 0⟩, 1) := by
  decide

/-- C4 amended: for the ingestion-service transformer the claim holds:
with timestamp fields present and parsable every candidate record is
emitted; a value failing float coercion falls back to 0.0 and counts
as one filled missing value; and rejection happens exactly when a
timestamp field is missing or the combined timestamp fails to parse.
The `src/etl` transformer instead rejects a record whose value fails
float coercion. -/
theorem transform_single_record_spec (r : CandRec) :
    (r.dateTime_present = true → r.time_present = true → r.ts_parses = true →
      (∃ v n, transform_single_ingestion r = (some ⟨r.ts, v⟩, n)) ∧
      (r.value = .badStr →
        transform_single_ingestion r = (some ⟨r.ts, 0⟩, 1))) ∧
    ((transform_single_ingestion r).1 = none ↔
      (r.dateTime_present = false ∨ r.time_present = false ∨ r.ts_parses = false)) ∧
    (r.dateTime_present = true → r.time_present = true → r.ts_parses = true →
      r.value = .badStr → transform_single_etl r = none) := by
  obtain ⟨d, t, p, ts, v, u⟩ := r
  refine ⟨?_, ?_, ?_⟩
  · intro hd ht hp
    subst hd; subst ht; subst hp
    constructor
    · cases v <;> exact ⟨_, _, rfl⟩
    · intro hv
      subst hv
      rfl
  · cases d <;> cases t <;> cases p <;> cases v <;>
      simp [transform_single_ingestion]
  · intro hd ht hp hv
    subst hd; subst ht; subst hp; subst hv
    rfl

/-- C4 witness: the amended specification at a concrete record with a
parsable timestamp (9) and a non-numeric value string: the
ingestion-service transformer emits {timestamp 9, value 0} with one
filled missing value. -/
theorem transform_single_record_spec_witness :
    transform_single_ingestion ⟨true, true, true, 9, .badStr, none⟩
      = (some ⟨9, 0⟩, 1) :=
  ((transform_single_record_spec ⟨true, true, true, 9, .badStr, none⟩).1
    rfl rfl rfl).2 rfl

/-- C8 witness: seed 7 from two different incoming generator states
(0 and 99) perturbs a one-record intraday list and a one-record summary
list identically. -/
theorem post_process_deterministic_witness :
    (7 : Int) ≠ 0 ∧
    (post_process_intraday 7 0 [⟨0, 0, 100, "user1"⟩]).1
      = (post_process_intraday 7 99 [⟨0, 0, 100, "user1"⟩]).1 ∧
    (post_process_summary 7 0 [⟨0, 64, sampleZones, sampleZones, "user1"⟩]).1
      = (post_process_summary 7 99 [⟨0, 64, sampleZones, sampleZones, "user1"⟩]).1 := by
  refine ⟨by decide, ?_⟩
  exact post_process_deterministic 7 0 99 [⟨0, 0, 100, "user1"⟩]
    [⟨0, 64, sampleZones, sampleZones, "user1"⟩] (by decide)

end Fitbit
